import Mathlib

/-
Verification development for the fyers-data-fetcher repository.

Shallow embedding of:
  * src/fyers_data_fetcher.py — the chunked historical-data fetcher
    (date-range chunking, per-chunk fetch loop, DataFrame formatting,
    CSV output decision in main), and
  * src/authentication_handler.py — the local HTTP callback listener
    that captures the OAuth authorization code.

Python `datetime.date` values are represented by their proleptic Gregorian
ordinal (the value of `date.toordinal()`, a positive natural number with
0001-01-01 ↦ 1).  Comparison of dates, `min`, and addition of
`timedelta(days=k)` correspond exactly to `≤`, `Nat.min` and `+ k` on
ordinals.  DataFrames are represented by their list of rows.
-/

namespace Fyers

/-- Decidable equality for `Except`, so that concrete runs of the
exception-modelling functions can be checked by `decide`. -/
instance {ε α : Type} [DecidableEq ε] [DecidableEq α] :
    DecidableEq (Except ε α) := fun x y =>
  match x, y with
  | .error a, .error b =>
    match decEq a b with
    | isTrue h => isTrue (by rw [h])
    | isFalse h => isFalse (fun hh => h (Except.error.inj hh))
  | .error _, .ok _ => isFalse (fun hh => Except.noConfusion hh)
  | .ok _, .error _ => isFalse (fun hh => Except.noConfusion hh)
  | .ok a, .ok b =>
    match decEq a b with
    | isTrue h => isTrue (by rw [h])
    | isFalse h => isFalse (fun hh => h (Except.ok.inj hh))

/-! ### Calendar arithmetic (model of Python `datetime.date`)

Transcribed from CPython's `datetime` module internals
(`_is_leap`, `_days_before_year`, `_days_in_month`, `_days_before_month`,
`_ymd2ord`, `_ord2ymd`), which define `date.toordinal` /
`date.fromordinal` — used by `strptime` parsing and `strftime` formatting
in `get_date_ranges`. -/

def isLeap (y : Nat) : Bool :=
  y % 4 == 0 && (y % 100 != 0 || y % 400 == 0)

/-- `_DAYS_IN_MONTH`; index 0 is a dummy (CPython uses -1 there). -/
def DAYS_IN_MONTH : List Nat :=
  [0, 31, 28, 31, 30, 31, 30, 31, 31, 30, 31, 30, 31]

/-- `_DAYS_BEFORE_MONTH`; index 0 is a dummy (CPython uses -1 there). -/
def DAYS_BEFORE_MONTH : List Nat :=
  [0, 0, 31, 59, 90, 120, 151, 181, 212, 243, 273, 304, 334]

def daysInMonth (y m : Nat) : Nat :=
  if m == 2 && isLeap y then 29 else DAYS_IN_MONTH.getD m 0

def daysBeforeMonth (y m : Nat) : Nat :=
  DAYS_BEFORE_MONTH.getD m 0 + (if m > 2 && isLeap y then 1 else 0)

/-- `_days_before_year`: days before January 1st of year `y`.
The terms are reordered so that truncated `Nat` subtraction is exact:
`(y-1)/4 ≥ (y-1)/100`, so `365*(y-1) + (y-1)/4 + (y-1)/400 ≥ (y-1)/100`. -/
def daysBeforeYear (y : Nat) : Nat :=
  365 * (y - 1) + (y - 1) / 4 + (y - 1) / 400 - (y - 1) / 100

/-- `_ymd2ord` = `date(y, m, d).toordinal()`. -/
def toOrdinal (y m d : Nat) : Nat :=
  daysBeforeYear y + daysBeforeMonth y m + d

/-- `_ord2ymd` = `date.fromordinal`, returning `(year, month, day)`. -/
def fromOrdinal (ordinal : Nat) : Nat × Nat × Nat :=
  let n0 := ordinal - 1
  let n400 := n0 / 146097
  let n1rem := n0 % 146097
  let n100 := n1rem / 36524
  let n2rem := n1rem % 36524
  let n4 := n2rem / 1461
  let n3rem := n2rem % 1461
  let n1 := n3rem / 365
  let n := n3rem % 365
  let year := n400 * 400 + 1 + n100 * 100 + n4 * 4 + n1
  if n1 == 4 || n100 == 4 then
    (year - 1, 12, 31)
  else
    let leapyear := n1 == 3 && (n4 != 24 || n100 == 3)
    let month := (n + 50) / 32
    let preceding := DAYS_BEFORE_MONTH.getD month 0 +
      (if month > 2 && leapyear then 1 else 0)
    if preceding > n then
      let month' := month - 1
      let dim := (if month' == 2 && leapyear then 29 else DAYS_IN_MONTH.getD month' 0)
      (year, month', n - (preceding - dim) + 1)
    else
      (year, month, n - preceding + 1)

/-! ### String splitting primitives

Python's `str.split(sep)` (single-character separator, no maxsplit) and
`str.split(sep, 1)`, embedded structurally over the character list of the
string so that concrete runs reduce inside the kernel. -/

def splitOnCharAux (sep : Char) : List Char → List Char → List (List Char)
  | [], acc => [acc.reverse]
  | c :: cs, acc =>
    if c = sep then acc.reverse :: splitOnCharAux sep cs []
    else splitOnCharAux sep cs (c :: acc)

/-- `s.split(sep)` for a one-character separator: `"a--b".split("-")`
gives `["a", "", "b"]`, and `"".split("-")` gives `[""]`. -/
def splitOnChar (sep : Char) (s : String) : List String :=
  (splitOnCharAux sep s.data []).map String.mk

/-- `s.split(sep, 1)`: `none` when the separator does not occur, otherwise
the parts before and after its first occurrence. -/
def splitFirstAux (sep : Char) : List Char → List Char → Option (List Char × List Char)
  | [], _ => none
  | c :: cs, acc =>
    if c = sep then some (acc.reverse, cs)
    else splitFirstAux sep cs (c :: acc)

def splitFirst (sep : Char) (s : String) : Option (String × String) :=
  (splitFirstAux sep s.data []).map (fun p => (String.mk p.1, String.mk p.2))

/-- `int(s)` on a nonnegative decimal literal (the conversion `strptime`
applies to each matched numeric field): all-digit, nonempty. -/
def toNatDigits (s : String) : Option Nat :=
  if s.data.isEmpty then none
  else if s.data.all (fun c => c.isDigit) then
    some (s.data.foldl (fun n c => 10 * n + (c.toNat - 48)) 0)
  else none

/-- Zero-pad a number to two digits (strftime `%m`, `%d`). -/
def pad2 (n : Nat) : String :=
  if n < 10 then "0" ++ toString n else toString n

/-- Zero-pad a number to four digits (strftime `%Y` for the years that occur
here, which all have four digits). -/
def pad4 (n : Nat) : String :=
  if n < 10 then "000" ++ toString n
  else if n < 100 then "00" ++ toString n
  else if n < 1000 then "0" ++ toString n
  else toString n

/-- `date.strftime("%Y-%m-%d")` on an ordinal. -/
def fmtYmd (ordinal : Nat) : String :=
  let ymd := fromOrdinal ordinal
  pad4 ymd.1 ++ "-" ++ pad2 ymd.2.1 ++ "-" ++ pad2 ymd.2.2

/-- `datetime.strptime(s, "%d-%m-%Y").date()`, as an ordinal: split on `-`,
read the numeric fields, validate them as a calendar date (year range as in
CPython's `date`), and convert with `toordinal`.  `none` models the
`ValueError` that `strptime` raises on invalid input. -/
def strptime_dmY (s : String) : Option Nat :=
  match splitOnChar '-' s with
  | [ds, ms, ys] =>
    match toNatDigits ds, toNatDigits ms, toNatDigits ys with
    | some d, some m, some y =>
      if 1 ≤ y && y ≤ 9999 && 1 ≤ m && m ≤ 12 && 1 ≤ d && d ≤ daysInMonth y m then
        some (toOrdinal y m d)
      else none
    | _, _, _ => none
  | _ => none

/-! ### The resolution → max-days lookup table (line 16) -/

/-- `DATA_LIMIT_DAYS = {"1": 100, "5": 100, "15": 100, "30": 100,
"45": 100, "60": 100, "D": 365}`, as an association list. -/
def DATA_LIMIT_DAYS : List (String × Nat) :=
  [("1", 100), ("5", 100), ("15", 100), ("30", 100), ("45", 100), ("60", 100), ("D", 365)]

/-- `DATA_LIMIT_DAYS.get(resolution, 100)` (line 211). -/
def DATA_LIMIT_DAYS_get (resolution : String) : Nat :=
  match DATA_LIMIT_DAYS.find? (fun p => p.1 == resolution) with
  | some p => p.2
  | none => 100

/-! ### The chunking loop of `get_date_ranges` (lines 209-217)

The `while start_dt < end_dt` loop is embedded with a fuel parameter for
structural recursion; `date_ranges_loop` supplies fuel `end_dt - start_dt`,
which is enough because each iteration strictly increases `start_dt`
(the unfolding lemmas below recover the exact loop equations). -/

def date_ranges_loop_fuel : Nat → Nat → Nat → Nat → List (Nat × Nat)
  | 0, _, _, _ => []
  | fuel + 1, start_dt, end_dt, delta =>
    if start_dt < end_dt then
      (start_dt, min (start_dt + delta) end_dt) ::
        date_ranges_loop_fuel fuel (min (start_dt + delta) end_dt + 1) end_dt delta
    else []

/-- The loop of `get_date_ranges` on date ordinals: the returned chunks are
the `(start_dt, next_dt)` date pairs appended on line 215 (before their
`strftime` formatting). -/
def date_ranges_loop (start_dt end_dt delta : Nat) : List (Nat × Nat) :=
  date_ranges_loop_fuel (end_dt - start_dt) start_dt end_dt delta

/-- The chunk list of `get_date_ranges` at the date level, for a resolution:
`delta = timedelta(days=DATA_LIMIT_DAYS.get(resolution, 100))`. -/
def get_date_ranges_dates (start_dt end_dt : Nat) (resolution : String) :
    List (Nat × Nat) :=
  date_ranges_loop start_dt end_dt (DATA_LIMIT_DAYS_get resolution)

/-- `get_date_ranges(start_date, end_date, resolution)` (lines 198-217):
parse both dd-mm-YYYY dates (`.error` models the `ValueError` raised by
`strptime`), run the loop, and format each chunk with
`strftime("%Y-%m-%d")`. -/
def get_date_ranges (start_date end_date resolution : String) :
    Except String (List (String × String)) :=
  match strptime_dmY start_date, strptime_dmY end_date with
  | some start_dt, some end_dt =>
    .ok ((get_date_ranges_dates start_dt end_dt resolution).map
      (fun c => (fmtYmd c.1, fmtYmd c.2)))
  | _, _ => .error "ValueError: time data does not match format"

/-! ### Unfolding lemmas for the loop -/

theorem date_ranges_loop_fuel_nil (fuel start_dt end_dt delta : Nat)
    (h : ¬ start_dt < end_dt) :
    date_ranges_loop_fuel fuel start_dt end_dt delta = [] := by
  cases fuel with
  | zero => rfl
  | succ f => simp [date_ranges_loop_fuel, h]

theorem date_ranges_loop_fuel_congr (f₁ f₂ start_dt end_dt delta : Nat)
    (h₁ : end_dt - start_dt ≤ f₁) (h₂ : end_dt - start_dt ≤ f₂) :
    date_ranges_loop_fuel f₁ start_dt end_dt delta =
      date_ranges_loop_fuel f₂ start_dt end_dt delta := by
  induction f₁ generalizing f₂ start_dt with
  | zero =>
    have hlt : ¬ start_dt < end_dt := by omega
    rw [date_ranges_loop_fuel_nil _ _ _ _ hlt, date_ranges_loop_fuel_nil _ _ _ _ hlt]
  | succ f ih =>
    by_cases hlt : start_dt < end_dt
    · obtain ⟨g, rfl⟩ : ∃ g, f₂ = g + 1 := by
        cases f₂ with
        | zero => omega
        | succ g => exact ⟨g, rfl⟩
      simp only [date_ranges_loop_fuel, if_pos hlt]
      have hmin : start_dt ≤ min (start_dt + delta) end_dt := by
        exact le_min (Nat.le_add_right _ _) (Nat.le_of_lt hlt)
      exact congrArg _ (ih _ _ (by omega) (by omega))
    · rw [date_ranges_loop_fuel_nil _ _ _ _ hlt, date_ranges_loop_fuel_nil _ _ _ _ hlt]

/-- When the loop guard fails the loop body never runs. -/
theorem date_ranges_loop_stop (start_dt end_dt delta : Nat)
    (h : ¬ start_dt < end_dt) :
    date_ranges_loop start_dt end_dt delta = [] :=
  date_ranges_loop_fuel_nil _ _ _ _ h

/-- One iteration of the loop body (lines 213-216). -/
theorem date_ranges_loop_step (start_dt end_dt delta : Nat)
    (h : start_dt < end_dt) :
    date_ranges_loop start_dt end_dt delta =
      (start_dt, min (start_dt + delta) end_dt) ::
        date_ranges_loop (min (start_dt + delta) end_dt + 1) end_dt delta := by
  have hmin : start_dt ≤ min (start_dt + delta) end_dt :=
    le_min (Nat.le_add_right _ _) (Nat.le_of_lt h)
  unfold date_ranges_loop
  obtain ⟨g, hg⟩ : ∃ g, end_dt - start_dt = g + 1 := by
    refine ⟨end_dt - start_dt - 1, by omega⟩
  rw [hg]
  simp only [date_ranges_loop_fuel, if_pos h]
  exact congrArg _ (date_ranges_loop_fuel_congr _ _ _ _ _ (by omega) (by omega))

/-! ### Structural invariants of the chunk list -/

/-- The head chunk of the loop output, when there is one, starts at
`start_dt`. -/
theorem date_ranges_loop_fuel_head (fuel start_dt end_dt delta : Nat) (c : Nat × Nat)
    (h : (date_ranges_loop_fuel fuel start_dt end_dt delta).head? = some c) :
    c.1 = start_dt := by
  cases fuel with
  | zero => simp [date_ranges_loop_fuel] at h
  | succ f =>
    by_cases hlt : start_dt < end_dt
    · simp only [date_ranges_loop_fuel, if_pos hlt, List.head?_cons,
        Option.some.injEq] at h
      rw [← h]
    · rw [date_ranges_loop_fuel_nil _ _ _ _ hlt] at h
      simp at h

/-- Every chunk lies inside `[start_dt, end_dt]` and is well-formed. -/
theorem date_ranges_loop_fuel_bounds (fuel : Nat) :
    ∀ start_dt end_dt delta : Nat, ∀ c ∈ date_ranges_loop_fuel fuel start_dt end_dt delta,
      start_dt ≤ c.1 ∧ c.1 ≤ c.2 ∧ c.2 ≤ end_dt := by
  induction fuel with
  | zero => intro s e d c hc; simp [date_ranges_loop_fuel] at hc
  | succ f ih =>
    intro s e d c hc
    by_cases hlt : s < e
    · simp only [date_ranges_loop_fuel, if_pos hlt, List.mem_cons] at hc
      rcases hc with rfl | hc
      · exact ⟨Nat.le_refl _,
          le_min (Nat.le_add_right _ _) (Nat.le_of_lt hlt), min_le_right _ _⟩
      · obtain ⟨h1, h2, h3⟩ := ih _ _ _ _ hc
        have : s ≤ min (s + d) e := le_min (Nat.le_add_right _ _) (Nat.le_of_lt hlt)
        exact ⟨by omega, h2, h3⟩
    · rw [date_ranges_loop_fuel_nil _ _ _ _ hlt] at hc
      simp at hc

/-- Adjacent chunks are contiguous: each end plus one day is the next
start. -/
theorem date_ranges_loop_fuel_chain (fuel : Nat) :
    ∀ start_dt end_dt delta : Nat,
      List.Chain' (fun a b : Nat × Nat => a.2 + 1 = b.1)
        (date_ranges_loop_fuel fuel start_dt end_dt delta) := by
  induction fuel with
  | zero => intro s e d; simp [date_ranges_loop_fuel]
  | succ f ih =>
    intro s e d
    by_cases hlt : s < e
    · simp only [date_ranges_loop_fuel, if_pos hlt]
      refine List.chain'_cons'.mpr ⟨?_, ih _ _ _⟩
      intro b hb
      exact (date_ranges_loop_fuel_head _ _ _ _ _ hb).symm
    · rw [date_ranges_loop_fuel_nil _ _ _ _ hlt]
      exact List.chain'_nil

/-- The loop output is nonempty as soon as the guard holds. -/
theorem date_ranges_loop_fuel_ne_nil (fuel start_dt end_dt delta : Nat)
    (hfuel : end_dt - start_dt ≤ fuel) (hlt : start_dt < end_dt) :
    date_ranges_loop_fuel fuel start_dt end_dt delta ≠ [] := by
  cases fuel with
  | zero => omega
  | succ f => simp [date_ranges_loop_fuel, if_pos hlt]

/-- When the requested span is not an exact multiple of `delta + 1`, the
last chunk ends exactly at `end_dt`. -/
theorem date_ranges_loop_fuel_last (fuel : Nat) :
    ∀ start_dt end_dt delta : Nat, end_dt - start_dt ≤ fuel →
      (end_dt - start_dt) % (delta + 1) ≠ 0 → ∀ c : Nat × Nat,
      (date_ranges_loop_fuel fuel start_dt end_dt delta).getLast? = some c →
      c.2 = end_dt := by
  induction fuel with
  | zero => intro s e d hf hmod c hc; simp [date_ranges_loop_fuel] at hc
  | succ f ih =>
    intro s e d hf hmod c hc
    have hlt : s < e := by
      rcases Nat.lt_or_ge s e with h | h
      · exact h
      · exfalso; apply hmod; have : e - s = 0 := by omega
        simp [this]
    simp only [date_ranges_loop_fuel, if_pos hlt] at hc
    by_cases hend : min (s + d) e = e
    · rw [hend] at hc
      rw [date_ranges_loop_fuel_nil f (e + 1) e d (by omega)] at hc
      simp only [List.getLast?_cons, List.getLast?_nil, Option.some.injEq] at hc
      rw [← hc]
      rfl
    · have hsd : min (s + d) e = s + d := by
        rcases Nat.le_total (s + d) e with h | h
        · exact min_eq_left h
        · exact absurd (min_eq_right h) hend
      rw [hsd] at hc
      have hsd_lt : s + d < e := by
        rcases Nat.lt_or_ge (s + d) e with h | h
        · exact h
        · exact absurd (min_eq_right h) hend
      -- the remaining span, and why it is still not a multiple of delta+1
      have hspan : e - s ≥ d + 1 := by omega
      have hmod' : (e - (s + d + 1)) % (d + 1) ≠ 0 := by
        intro h0
        apply hmod
        have heq : e - s = (e - (s + d + 1)) + (d + 1) := by omega
        rw [heq, Nat.add_mod_right]
        exact h0
      have hne : e - (s + d + 1) ≠ 0 := by
        intro h0; apply hmod'; simp [h0]
      have htail : date_ranges_loop_fuel f (s + d + 1) e d ≠ [] :=
        date_ranges_loop_fuel_ne_nil f (s + d + 1) e d (by omega) (by omega)
      obtain ⟨b, l, hbl⟩ := List.exists_cons_of_ne_nil htail
      rw [hbl, List.getLast?_cons_cons] at hc
      rw [← hbl] at hc
      exact ih (s + d + 1) e d (by omega) hmod' c hc

/-- Every day of `[start_dt, end_dt]` is covered by some chunk, when the
span is not an exact multiple of `delta + 1`. -/
theorem date_ranges_loop_fuel_covers (fuel : Nat) :
    ∀ start_dt end_dt delta : Nat, end_dt - start_dt ≤ fuel →
      (end_dt - start_dt) % (delta + 1) ≠ 0 → ∀ x : Nat,
      start_dt ≤ x → x ≤ end_dt →
      ∃ c ∈ date_ranges_loop_fuel fuel start_dt end_dt delta,
        c.1 ≤ x ∧ x ≤ c.2 := by
  induction fuel with
  | zero =>
    intro s e d hf hmod x hx1 hx2
    exfalso; apply hmod
    have h0 : e - s = 0 := by omega
    simp [h0]
  | succ f ih =>
    intro s e d hf hmod x hx1 hx2
    have hlt : s < e := by
      rcases Nat.lt_or_ge s e with h | h
      · exact h
      · exfalso; apply hmod; have : e - s = 0 := by omega
        simp [this]
    simp only [date_ranges_loop_fuel, if_pos hlt]
    by_cases hx : x ≤ min (s + d) e
    · exact ⟨(s, min (s + d) e), List.mem_cons_self _ _, hx1, hx⟩
    · push_neg at hx
      have hmin_lt : min (s + d) e < e := by
        have := min_le_right (s + d) e
        omega
      have hsd : min (s + d) e = s + d := by
        rcases Nat.le_total (s + d) e with h | h
        · exact min_eq_left h
        · rw [min_eq_right h] at hmin_lt; omega
      rw [hsd] at hx hmin_lt ⊢
      have hmod' : (e - (s + d + 1)) % (d + 1) ≠ 0 := by
        intro h0
        apply hmod
        have heq : e - s = (e - (s + d + 1)) + (d + 1) := by omega
        rw [heq, Nat.add_mod_right]
        exact h0
      obtain ⟨c, hc, hcx⟩ := ih (s + d + 1) e d (by omega) hmod' x (by omega) hx2
      exact ⟨c, List.mem_cons_of_mem _ hc, hcx⟩

/-- The exact-coverage property that claim C1 asserts of the chunk list:
adjacent chunks are contiguous (`end + 1 day = next start`), the first
chunk starts at the requested start, every chunk is well-formed, the final
chunk ends at the requested end, and the chunks cover exactly the interval
`[start_dt, end_dt]`. -/
def chunk_list_exact (start_dt end_dt : Nat) (resolution : String) : Prop :=
  List.Chain' (fun a b : Nat × Nat => a.2 + 1 = b.1)
      (get_date_ranges_dates start_dt end_dt resolution) ∧
  (∀ c : Nat × Nat,
      (get_date_ranges_dates start_dt end_dt resolution).head? = some c →
      c.1 = start_dt) ∧
  (∀ c ∈ get_date_ranges_dates start_dt end_dt resolution, c.1 ≤ c.2) ∧
  (∀ c : Nat × Nat,
      (get_date_ranges_dates start_dt end_dt resolution).getLast? = some c →
      c.2 = end_dt) ∧
  (∀ x : Nat, (start_dt ≤ x ∧ x ≤ end_dt) ↔
      ∃ c ∈ get_date_ranges_dates start_dt end_dt resolution,
        c.1 ≤ x ∧ x ≤ c.2)

/-- C1 counterexample: for start date 01-01-2023 and end date 02-01-2024
(a span of 366 days) at resolution "D", the single produced chunk is
(2023-01-01, 2024-01-01): the final chunk's end is one day before the
requested end date, and the requested end date 2024-01-02 is covered by no
chunk. -/
theorem C1_counterexample :
    ¬ chunk_list_exact (toOrdinal 2023 1 1) (toOrdinal 2024 1 2) "D" := by
  intro h
  obtain ⟨-, -, -, -, hcov⟩ := h
  have hcs : get_date_ranges_dates (toOrdinal 2023 1 1) (toOrdinal 2024 1 2) "D" =
      [(738521, 738886)] := by decide
  have hx := (hcov (toOrdinal 2024 1 2)).mp ⟨by decide, Nat.le_refl _⟩
  rw [hcs] at hx
  obtain ⟨c, hc, h1, h2⟩ := hx
  simp only [List.mem_singleton] at hc
  subst hc
  revert h2
  decide

/-- C1 (amended): for every start/end date pair and every resolution, as
long as the number of days from start to end is not an exact multiple of
(max-days-per-chunk + 1), the chunk list returned by `get_date_ranges` is
contiguous and exactly covers the interval [start, end]: each chunk's end
date plus one day equals the next chunk's start date, and the final
chunk's end date equals the requested end date exactly.  (When the span is
an exact positive multiple of max-days + 1, the final chunk instead ends
one day early and the end date is not covered, as the counterexample
shows; when start ≥ end the span is 0, also an exact multiple.) -/
theorem C1_chunks_contiguous_cover (start_dt end_dt : Nat) (resolution : String)
    (h : (end_dt - start_dt) % (DATA_LIMIT_DAYS_get resolution + 1) ≠ 0) :
    chunk_list_exact start_dt end_dt resolution := by
  have hlt : start_dt < end_dt := by
    rcases Nat.lt_or_ge start_dt end_dt with hl | hl
    · exact hl
    · exfalso; apply h; have : end_dt - start_dt = 0 := by omega
      simp [this]
  set d := DATA_LIMIT_DAYS_get resolution with hd
  refine ⟨date_ranges_loop_fuel_chain _ _ _ _, ?_, ?_, ?_, ?_⟩
  · intro c hc
    exact date_ranges_loop_fuel_head _ _ _ _ _ hc
  · intro c hc
    exact (date_ranges_loop_fuel_bounds _ _ _ _ _ hc).2.1
  · intro c hc
    exact date_ranges_loop_fuel_last _ _ _ _ (Nat.le_refl _) h c hc
  · intro x
    constructor
    · rintro ⟨hx1, hx2⟩
      exact date_ranges_loop_fuel_covers _ _ _ _ (Nat.le_refl _) h x hx1 hx2
    · rintro ⟨c, hc, h1, h2⟩
      obtain ⟨b1, b2, b3⟩ := date_ranges_loop_fuel_bounds _ _ _ _ _ hc
      omega

/-- Witness for C1: dates 01-01-2024 to 30-05-2024 (span 150 days) at
resolution "1". -/
theorem C1_witness :
    chunk_list_exact (toOrdinal 2024 1 1) (toOrdinal 2024 5 30) "1" :=
  C1_chunks_contiguous_cover _ _ _ (by decide)

/-- C4: the per-chunk span comes from the `DATA_LIMIT_DAYS` lookup: every
intraday resolution ("1", "5", "15", "30", "45", "60") maps to 100 days,
resolution "D" maps to 365 days, and any resolution that is not a key of
the table defaults to 100 days. -/
theorem C4_limit_table :
    DATA_LIMIT_DAYS_get "1" = 100 ∧ DATA_LIMIT_DAYS_get "5" = 100 ∧
    DATA_LIMIT_DAYS_get "15" = 100 ∧ DATA_LIMIT_DAYS_get "30" = 100 ∧
    DATA_LIMIT_DAYS_get "45" = 100 ∧ DATA_LIMIT_DAYS_get "60" = 100 ∧
    DATA_LIMIT_DAYS_get "D" = 365 ∧
    ∀ resolution : String, resolution ∉ DATA_LIMIT_DAYS.map Prod.fst →
      DATA_LIMIT_DAYS_get resolution = 100 := by
  refine ⟨by decide, by decide, by decide, by decide, by decide, by decide, by decide, ?_⟩
  intro resolution hres
  have hfind : DATA_LIMIT_DAYS.find? (fun p => p.1 == resolution) = none := by
    apply List.find?_eq_none.mpr
    intro p hp h
    apply hres
    have : p.1 = resolution := by simpa using h
    rw [← this]
    exact List.mem_map_of_mem Prod.fst hp
  unfold DATA_LIMIT_DAYS_get
  rw [hfind]

/-- Witness for C4: resolution "240" is not a key of the table and
defaults to 100 days. -/
theorem C4_witness : DATA_LIMIT_DAYS_get "240" = 100 :=
  C4_limit_table.2.2.2.2.2.2.2 "240" (by decide)

/-- C5: for resolution "D" and any start/end pair spanning 400 days, the
chunker produces exactly the 2 chunks (start, start+365) and
(start+366, start+400) — one of 365 days plus one covering the remainder —
and each chunk spans at most 365 days. -/
theorem C5_daily_400_split (start_dt end_dt : Nat) (h : end_dt = start_dt + 400) :
    get_date_ranges_dates start_dt end_dt "D" =
      [(start_dt, start_dt + 365), (start_dt + 366, start_dt + 400)] ∧
    (get_date_ranges_dates start_dt end_dt "D").length = 2 ∧
    ∀ c ∈ get_date_ranges_dates start_dt end_dt "D", c.2 - c.1 ≤ 365 := by
  subst h
  have hD : DATA_LIMIT_DAYS_get "D" = 365 := by decide
  have h1 : min (start_dt + 365) (start_dt + 400) = start_dt + 365 := by omega
  have h2 : min (start_dt + 366 + 365) (start_dt + 400) = start_dt + 400 := by omega
  have hcs : get_date_ranges_dates start_dt (start_dt + 400) "D" =
      [(start_dt, start_dt + 365), (start_dt + 366, start_dt + 400)] := by
    unfold get_date_ranges_dates
    rw [hD, date_ranges_loop_step _ _ _ (by omega), h1,
      date_ranges_loop_step _ _ _ (by omega), h2,
      date_ranges_loop_stop _ _ _ (by omega)]
  refine ⟨hcs, by rw [hcs]; rfl, ?_⟩
  intro c hc
  rw [hcs] at hc
  simp only [List.mem_cons, List.not_mem_nil, or_false] at hc
  rcases hc with hc | hc
  · rw [hc]; omega
  · rw [hc]; omega

/-- Witness for C5: the concrete pair 01-01-2024 to 04-02-2025 spans 400
days. -/
theorem C5_witness :
    get_date_ranges_dates (toOrdinal 2024 1 1) (toOrdinal 2025 2 4) "D" =
      [(toOrdinal 2024 1 1, toOrdinal 2024 1 1 + 365),
       (toOrdinal 2024 1 1 + 366, toOrdinal 2024 1 1 + 400)] ∧
    (get_date_ranges_dates (toOrdinal 2024 1 1) (toOrdinal 2025 2 4) "D").length = 2 ∧
    ∀ c ∈ get_date_ranges_dates (toOrdinal 2024 1 1) (toOrdinal 2025 2 4) "D",
      c.2 - c.1 ≤ 365 :=
  C5_daily_400_split (toOrdinal 2024 1 1) (toOrdinal 2025 2 4) (by decide)

/-! ### Candles and `format_historical_prices` (lines 181-196)

A raw candle is one row of the `candles` array of an API response:
`[timestamp, open, high, low, close, volume]`.  Timestamps are epoch
seconds (integers); the price and volume entries are modelled as rationals
(the claims under verification do not depend on binary floating-point
rounding: the formatting step copies the price fields unchanged and
truncates the volume to an integer). -/

structure Candle where
  timestamp : Int
  «open» : ℚ
  high : ℚ
  low : ℚ
  close : ℚ
  volume : ℚ
deriving DecidableEq, Repr

/-- A row of the DataFrame built by `format_historical_prices`:
`date_time` is the naive (timezone-annotation-free) local wall-clock time,
truncated to the minute, represented in seconds since the epoch of the
local clock readout. -/
structure FormattedCandle where
  date_time : Int
  «open» : ℚ
  high : ℚ
  low : ℚ
  close : ℚ
  volume : Int
deriving DecidableEq, Repr

/-- A timezone-aware pandas timestamp: the UTC instant in epoch seconds
together with the display offset of its timezone annotation. -/
structure TzTimestamp where
  instant : Int
  offsetSeconds : Int

/-- `pd.to_datetime(t, unit="s")`: epoch seconds to a naive timestamp. -/
def to_datetime_s (t : Int) : Int := t

/-- `.dt.tz_localize('utc')`: annotate a naive timestamp as UTC. -/
def tz_localize_utc (t : Int) : TzTimestamp := ⟨t, 0⟩

/-- The UTC offset of the `Asia/Kolkata` timezone: +5:30 = 19800 seconds
(constant, no daylight saving, for every instant in the epoch-seconds
range market data can carry). -/
def KOLKATA_OFFSET : Int := 19800

/-- `.dt.tz_convert('Asia/Kolkata')`: same instant, displayed at +5:30. -/
def tz_convert_kolkata (ts : TzTimestamp) : TzTimestamp :=
  ⟨ts.instant, KOLKATA_OFFSET⟩

/-- `.dt.tz_localize(None)`: strip the timezone annotation, keeping the
local wall-clock reading. -/
def tz_localize_none (ts : TzTimestamp) : Int :=
  ts.instant + ts.offsetSeconds

/-- `.dt.floor("min")`: truncate to the minute (floor division). -/
def floor_min (t : Int) : Int := 60 * Int.fdiv t 60

/-- `.astype(int)` on the volume column: truncation toward zero. -/
def astype_int (q : ℚ) : Int := q.num / (q.den : Int)

/-- `format_historical_prices(candle_data)` (lines 181-196): build the
DataFrame (list of rows), then apply the column transformations of lines
191-195 — timestamp to datetime, localize UTC, convert to Asia/Kolkata,
strip the timezone, floor to the minute, cast volume to int. -/
def format_historical_prices (candle_data : List Candle) : List FormattedCandle :=
  candle_data.map (fun c =>
    { date_time := floor_min (tz_localize_none (tz_convert_kolkata
        (tz_localize_utc (to_datetime_s c.timestamp)))),
      «open» := c.«open», high := c.high, low := c.low, close := c.close,
      volume := astype_int c.volume })

/-- The column names of the DataFrame built on line 190, which become the
CSV header row. -/
def FORMATTED_COLUMNS : List String :=
  ["date_time", "open", "high", "low", "close", "volume"]

/-- C8: `format_historical_prices` keeps one output row per candle; each
epoch-seconds timestamp becomes the wall-clock time in the fixed UTC+5:30
timezone (the instant plus 19800 seconds) with the timezone annotation
stripped and the result truncated to the minute, the volume is cast to an
integer, and the open/high/low/close fields are unchanged. -/
theorem C8_format_rows (candle_data : List Candle) (i : Nat) (c : Candle)
    (h : candle_data[i]? = some c) :
    (format_historical_prices candle_data).length = candle_data.length ∧
    (format_historical_prices candle_data)[i]? = some
      { date_time := 60 * Int.fdiv (c.timestamp + 19800) 60,
        «open» := c.«open», high := c.high, low := c.low, close := c.close,
        volume := c.volume.num / (c.volume.den : Int) } := by
  constructor
  · exact List.length_map _ _
  · unfold format_historical_prices
    rw [List.getElem?_map, h]
    rfl

/-- A concrete sample candle (epoch 1704085230 = 2024-01-01 05:00:30 UTC). -/
def sampleCandle : Candle :=
  { timestamp := 1704085230, «open» := 100, high := 102, low := 99,
    close := 101, volume := 1000 }

/-- Witness for C8: the sample candle's timestamp becomes its +5:30
wall-clock reading truncated to the minute. -/
theorem C8_witness :
    (format_historical_prices [sampleCandle]).length = [sampleCandle].length ∧
    (format_historical_prices [sampleCandle])[0]? = some
      { date_time := 60 * Int.fdiv (sampleCandle.timestamp + 19800) 60,
        «open» := sampleCandle.«open», high := sampleCandle.high,
        low := sampleCandle.low, close := sampleCandle.close,
        volume := sampleCandle.volume.num / (sampleCandle.volume.den : Int) } :=
  C8_format_rows [sampleCandle] 0 sampleCandle rfl

/-! ### `fetch_historical_data` (lines 219-245) and `main` (lines 263-283)

The Fyers session is abstracted by the response function `resp`: calling
`session.history({"symbol": symbol, "resolution": resolution,
"date_format": "1", "range_from": start, "range_to": end})` yields the
`candles` array `resp symbol resolution start end`.  Exceptions are
modelled with `Except String`. -/

/-- The value `fetch_historical_data` returns: either the bare
`pd.DataFrame()` built when no chunk was fetched, or the formatted
DataFrame produced by `format_historical_prices` (whose columns are
`FORMATTED_COLUMNS`). -/
inductive FetchDF where
  | empty : FetchDF
  | formatted : List FormattedCandle → FetchDF
deriving DecidableEq, Repr

/-- `df.empty`. -/
def FetchDF.isEmpty : FetchDF → Bool
  | .empty => true
  | .formatted rows => rows.isEmpty

/-- `df.columns`, as written by `to_csv` as the CSV header row. -/
def FetchDF.columns : FetchDF → List String
  | .empty => []
  | .formatted _ => FORMATTED_COLUMNS

/-- `df`'s rows. -/
def FetchDF.rows : FetchDF → List FormattedCandle
  | .empty => []
  | .formatted rows => rows

/-- The `for start, end in date_ranges` loop of lines 235-241:
accumulate each chunk's candles into `all_data`, or raise on the first
chunk whose response has no candles (`if response["candles"]:` is the
Python truthiness test, false exactly for an empty array). -/
def fetch_loop (resp : String → String → String → String → List Candle)
    (symbol resolution : String) :
    List (String × String) → List (List Candle) → Except String (List (List Candle))
  | [], all_data => .ok all_data
  | (start, stop) :: rest, all_data =>
    if (resp symbol resolution start stop).isEmpty then
      .error ("Data not available for " ++ start ++ " to " ++ stop)
    else
      fetch_loop resp symbol resolution rest
        (all_data ++ [resp symbol resolution start stop])

/-- `fetch_historical_data(session, symbol, resolution, start_date,
end_date)` (lines 219-245): chunk the range, fetch each chunk in order,
then `format_historical_prices(np.vstack(all_data)) if all_data else
pd.DataFrame()` — `np.vstack` concatenates the per-chunk row arrays. -/
def fetch_historical_data (resp : String → String → String → String → List Candle)
    (symbol resolution start_date end_date : String) : Except String FetchDF :=
  match get_date_ranges start_date end_date resolution with
  | .error m => .error m
  | .ok date_ranges =>
    match fetch_loop resp symbol resolution date_ranges [] with
    | .error m => .error m
    | .ok [] => .ok .empty
    | .ok all_data => .ok (.formatted (format_historical_prices all_data.flatten))

/-- The `data_parameters.json` configuration record. -/
structure DataParameters where
  scriptName : String
  resolution : String
  startDate : String
  endDate : String

/-- A CSV file written by `save_data_to_csv`: its name, its header row and
its data rows. -/
structure SavedCsv where
  filename : String
  header : List String
  rows : List FormattedCandle
deriving DecidableEq, Repr

/-- The folder the CSV is saved into (line 19). -/
def SAVE_TO_FOLDER : String := "downloaded_data"

/-- The tail of `main` (lines 278-283): fetch, then — only when the
DataFrame is non-empty — build the file name
`{symbol-after-colon}_{resolution}_{start}_to_{end}.csv` and save the
DataFrame with its header; an empty DataFrame only logs a warning.
`.error` models an uncaught exception (from the fetch, or the
`IndexError` of `split(':')[1]` when the script name has no colon);
the `Option` is the written file, `none` when nothing is written. -/
def main_fetch_and_save (resp : String → String → String → String → List Candle)
    (dp : DataParameters) : Except String (Option SavedCsv) :=
  match fetch_historical_data resp dp.scriptName dp.resolution dp.startDate dp.endDate with
  | .error m => .error m
  | .ok df =>
    if df.isEmpty then .ok none
    else
      match (splitOnChar ':' dp.scriptName)[1]? with
      | none => .error "IndexError: list index out of range"
      | some symbol =>
        .ok (some { filename := symbol ++ "_" ++ dp.resolution ++ "_" ++
                      dp.startDate ++ "_to_" ++ dp.endDate ++ ".csv",
                    header := df.columns, rows := df.rows })

/-- The list of output files a run of `main`'s fetch-and-save tail
produces (empty on an uncaught exception or when no data was retrieved). -/
def savedFiles : Except String (Option SavedCsv) → List SavedCsv
  | .error _ => []
  | .ok none => []
  | .ok (some f) => [f]

/-- The fetch loop raises on the first chunk whose response is empty,
naming that chunk's dates, whatever data was accumulated before. -/
theorem fetch_loop_first_empty (resp : String → String → String → String → List Candle)
    (symbol resolution : String) (c₀ : String × String) :
    ∀ (ranges : List (String × String)) (acc : List (List Candle)),
      ranges.find? (fun c => (resp symbol resolution c.1 c.2).isEmpty) = some c₀ →
      fetch_loop resp symbol resolution ranges acc =
        .error ("Data not available for " ++ c₀.1 ++ " to " ++ c₀.2) := by
  intro ranges
  induction ranges with
  | nil => intro acc h; simp [List.find?_nil] at h
  | cons a rest ih =>
    intro acc h
    obtain ⟨a1, a2⟩ := a
    cases hemp : (resp symbol resolution a1 a2).isEmpty with
    | true =>
      simp only [List.find?_cons, hemp] at h
      obtain rfl : (a1, a2) = c₀ := by simpa using h
      simp [fetch_loop, hemp]
    | false =>
      simp only [List.find?_cons, hemp] at h
      simp only [fetch_loop, hemp]
      rw [if_neg (by simp)]
      exact ih _ h

/-- C2: whenever some chunk's response has an empty candles array,
`fetch_historical_data` raises an error naming the first such chunk's
start and end dates and returns no candles at all — no partial result even
if earlier chunks returned data — and `main` writes no output file. -/
theorem C2_empty_chunk_aborts (resp : String → String → String → String → List Candle)
    (dp : DataParameters) (ranges : List (String × String))
    (hranges : get_date_ranges dp.startDate dp.endDate dp.resolution = .ok ranges)
    (hempty : ∃ c ∈ ranges, resp dp.scriptName dp.resolution c.1 c.2 = []) :
    ∃ c₀ ∈ ranges,
      resp dp.scriptName dp.resolution c₀.1 c₀.2 = [] ∧
      ranges.find? (fun c => (resp dp.scriptName dp.resolution c.1 c.2).isEmpty) =
        some c₀ ∧
      fetch_historical_data resp dp.scriptName dp.resolution dp.startDate dp.endDate =
        .error ("Data not available for " ++ c₀.1 ++ " to " ++ c₀.2) ∧
      savedFiles (main_fetch_and_save resp dp) = [] := by
  have hsome : (ranges.find?
      (fun c => (resp dp.scriptName dp.resolution c.1 c.2).isEmpty)).isSome := by
    rw [List.find?_isSome]
    obtain ⟨c, hc, hcx⟩ := hempty
    exact ⟨c, hc, by simp [hcx]⟩
  obtain ⟨c₀, hc₀⟩ := Option.isSome_iff_exists.mp hsome
  have hmem : c₀ ∈ ranges := List.mem_of_find?_eq_some hc₀
  have hnil : resp dp.scriptName dp.resolution c₀.1 c₀.2 = [] := by
    have := List.find?_some hc₀
    simpa [List.isEmpty_iff] using this
  have hloop := fetch_loop_first_empty resp dp.scriptName dp.resolution c₀ ranges [] hc₀
  have hfetch : fetch_historical_data resp dp.scriptName dp.resolution
      dp.startDate dp.endDate =
      .error ("Data not available for " ++ c₀.1 ++ " to " ++ c₀.2) := by
    simp only [fetch_historical_data, hranges, hloop]
  refine ⟨c₀, hmem, hnil, hc₀, hfetch, ?_⟩
  simp only [main_fetch_and_save, hfetch, savedFiles]

/-- The configuration used by the C2 witness. -/
def dpC2 : DataParameters :=
  { scriptName := "NSE:SBIN-EQ", resolution := "1",
    startDate := "01-01-2024", endDate := "30-05-2024" }

/-- A response function whose second chunk (starting 2024-04-11) has no
candles. -/
def respC2 : String → String → String → String → List Candle :=
  fun _ _ start _ => if start = "2024-04-11" then [] else [sampleCandle]

/-- The chunks of 01-01-2024 .. 30-05-2024 at resolution "1". -/
def rangesC2 : List (String × String) :=
  [("2024-01-01", "2024-04-10"), ("2024-04-11", "2024-05-30")]

/-- Witness for C2: with the second of two chunks empty, the fetch raises
naming 2024-04-11 to 2024-05-30 and nothing is saved. -/
theorem C2_witness :
    ∃ c₀ ∈ rangesC2,
      respC2 dpC2.scriptName dpC2.resolution c₀.1 c₀.2 = [] ∧
      rangesC2.find?
          (fun c => (respC2 dpC2.scriptName dpC2.resolution c.1 c.2).isEmpty) =
        some c₀ ∧
      fetch_historical_data respC2 dpC2.scriptName dpC2.resolution
          dpC2.startDate dpC2.endDate =
        .error ("Data not available for " ++ c₀.1 ++ " to " ++ c₀.2) ∧
      savedFiles (main_fetch_and_save respC2 dpC2) = [] :=
  C2_empty_chunk_aborts respC2 dpC2 rangesC2 (by decide) (by decide)

/-- C7: on a successful fetch with data, exactly one CSV file is produced;
its name is `{symbol}_{resolution}_{start}_to_{end}.csv` built from the
configured ScriptName (part after the colon), Resolution, StartDate and
EndDate, and its header row is date_time, open, high, low, close, volume
in that order. -/
theorem C7_csv_name_and_header
    (resp : String → String → String → String → List Candle)
    (dp : DataParameters) (df : FetchDF) (symbol : String)
    (hfetch : fetch_historical_data resp dp.scriptName dp.resolution
        dp.startDate dp.endDate = .ok df)
    (hnonempty : df.isEmpty = false)
    (hsym : (splitOnChar ':' dp.scriptName)[1]? = some symbol) :
    ∃ rows : List FormattedCandle, df = .formatted rows ∧
      savedFiles (main_fetch_and_save resp dp) =
        [{ filename := symbol ++ "_" ++ dp.resolution ++ "_" ++ dp.startDate ++
             "_to_" ++ dp.endDate ++ ".csv",
           header := FORMATTED_COLUMNS, rows := rows }] := by
  cases df with
  | empty => simp [FetchDF.isEmpty] at hnonempty
  | formatted rows =>
    refine ⟨rows, rfl, ?_⟩
    simp only [main_fetch_and_save, hfetch, hnonempty, Bool.false_eq_true,
      if_false, hsym, savedFiles, FetchDF.columns, FetchDF.rows]

/-- The configuration used by the C7 and C10 witnesses. -/
def dpC7 : DataParameters :=
  { scriptName := "NSE:SBIN-EQ", resolution := "D",
    startDate := "01-01-2024", endDate := "03-01-2024" }

/-- A response function that always returns one candle. -/
def respC7 : String → String → String → String → List Candle :=
  fun _ _ _ _ => [sampleCandle]

/-- Witness for C7: the successful two-day daily fetch writes exactly
`SBIN-EQ_D_01-01-2024_to_03-01-2024.csv` with the six-column header. -/
theorem C7_witness :
    ∃ rows : List FormattedCandle,
      FetchDF.formatted (format_historical_prices [sampleCandle]) = .formatted rows ∧
      savedFiles (main_fetch_and_save respC7 dpC7) =
        [{ filename := "SBIN-EQ" ++ "_" ++ dpC7.resolution ++ "_" ++
             dpC7.startDate ++ "_to_" ++ dpC7.endDate ++ ".csv",
           header := FORMATTED_COLUMNS, rows := rows }] :=
  C7_csv_name_and_header respC7 dpC7
    (.formatted (format_historical_prices [sampleCandle])) "SBIN-EQ"
    (by decide) (by decide) (by decide)

/-- C10: when the parsed start date is on or after the parsed end date,
`get_date_ranges` returns an empty chunk list, `fetch_historical_data`
consults the session for no chunk at all and returns the empty DataFrame,
and `main` writes no CSV file. -/
theorem C10_empty_range (dp : DataParameters) (start_dt end_dt : Nat)
    (hs : strptime_dmY dp.startDate = some start_dt)
    (he : strptime_dmY dp.endDate = some end_dt)
    (hle : end_dt ≤ start_dt) :
    get_date_ranges_dates start_dt end_dt dp.resolution = [] ∧
    get_date_ranges dp.startDate dp.endDate dp.resolution = .ok [] ∧
    (∀ resp : String → String → String → String → List Candle,
      fetch_historical_data resp dp.scriptName dp.resolution
        dp.startDate dp.endDate = .ok .empty) ∧
    (∀ resp : String → String → String → String → List Candle,
      savedFiles (main_fetch_and_save resp dp) = []) := by
  have hdates : get_date_ranges_dates start_dt end_dt dp.resolution = [] :=
    date_ranges_loop_stop _ _ _ (by omega)
  have hstr : get_date_ranges dp.startDate dp.endDate dp.resolution = .ok [] := by
    simp only [get_date_ranges, hs, he, hdates, List.map_nil]
  have hfetch : ∀ resp : String → String → String → String → List Candle,
      fetch_historical_data resp dp.scriptName dp.resolution
        dp.startDate dp.endDate = .ok .empty := by
    intro resp
    simp only [fetch_historical_data, hstr, fetch_loop]
  refine ⟨hdates, hstr, hfetch, ?_⟩
  intro resp
  simp only [main_fetch_and_save, hfetch resp, FetchDF.isEmpty, if_true, savedFiles]

/-- The configuration used by the C10 witness: equal start and end. -/
def dpC10 : DataParameters :=
  { scriptName := "NSE:SBIN-EQ", resolution := "D",
    startDate := "05-03-2024", endDate := "05-03-2024" }

/-- Witness for C10: with start = end = 05-03-2024, no chunk, no request,
empty DataFrame, no file. -/
theorem C10_witness :
    get_date_ranges_dates (toOrdinal 2024 3 5) (toOrdinal 2024 3 5) dpC10.resolution = [] ∧
    get_date_ranges dpC10.startDate dpC10.endDate dpC10.resolution = .ok [] ∧
    (∀ resp : String → String → String → String → List Candle,
      fetch_historical_data resp dpC10.scriptName dpC10.resolution
        dpC10.startDate dpC10.endDate = .ok .empty) ∧
    (∀ resp : String → String → String → String → List Candle,
      savedFiles (main_fetch_and_save resp dpC10) = []) :=
  C10_empty_range dpC10 (toOrdinal 2024 3 5) (toOrdinal 2024 3 5)
    (by decide) (by decide) (Nat.le_refl _)

/-! ### The local authentication callback server
(src/authentication_handler.py)

The listener is a single-threaded state machine: `running` and
`auth_code` are the `httpd.running` / `httpd.auth_code` attributes set in
`run_local_server` and updated by `AuthHandler.do_GET`.  A request is
represented by the GET request path (`self.path`); the bound port and the
HTML body of the confirmation response play no part in the claims. -/

structure ServerState where
  running : Bool
  auth_code : Option String
deriving DecidableEq, Repr

/-- `urllib.parse.urlparse(path).query`: drop everything from the first
`#` (the fragment), then take everything after the first `?`; no `?`
means an empty query string. -/
def urlparse_query (path : String) : String :=
  let before_frag :=
    match splitFirst '#' path with
    | some p => p.1
    | none => path
  match splitFirst '?' before_frag with
  | some p => p.2
  | none => ""

/-- `urllib.parse.parse_qs(query)` restricted to one key, returning the
first value of that key — `params[key][0]` — or `none` when the key is
absent from the dict.  As in `parse_qsl`: fields are the `&`-separated
pieces, a field without `=` is skipped, the name is what precedes the
first `=`, and blank values are dropped (`keep_blank_values=False`).
Percent-decoding is not modelled (it is the identity on the inputs that
occur here). -/
def parse_qs_first (query key : String) : Option String :=
  ((splitOnChar '&' query).filterMap (fun field =>
    match splitFirst '=' field with
    | none => none
    | some (name, value) =>
      if name = key && value ≠ "" then some value else none)).head?

/-- `AuthHandler.do_GET` (lines 13-43): parse the query parameters of the
request path; when they contain `auth_code`, store its first value on the
server and clear the running flag; otherwise change nothing. -/
def do_GET (st : ServerState) (path : String) : ServerState :=
  match parse_qs_first (urlparse_query path) "auth_code" with
  | some code => { running := false, auth_code := some code }
  | none => st

/-- The `while httpd.running: httpd.handle_request()` loop of lines 62-63
fed with the (finite) sequence of incoming requests: `none` means the loop
is still blocked in `handle_request` waiting for a request that never
comes; `some (auth_code, leftover)` means the loop exited, returning the
stored code with the requests that were never processed. -/
def serve_loop : List String → ServerState → Option (Option String × List String)
  | [], st => if st.running then none else some (st.auth_code, [])
  | r :: rest, st =>
    if st.running then serve_loop rest (do_GET st r)
    else some (st.auth_code, r :: rest)

/-- `run_local_server(port)` (lines 49-65): serve from the initial state
`running := True, auth_code := None`. -/
def run_local_server (requests : List String) : Option (Option String × List String) :=
  serve_loop requests { running := true, auth_code := none }

/-- Once the running flag is cleared the loop exits at once, touching no
further request. -/
theorem serve_loop_stopped (reqs : List String) (st : ServerState)
    (h : st.running = false) :
    serve_loop reqs st = some (st.auth_code, reqs) := by
  cases reqs with
  | nil => simp [serve_loop, h]
  | cons r rest => simp [serve_loop, h]

/-- C3: when the listener receives a GET request whose query string
carries an `auth_code` parameter (after any number of requests that carry
none), `run_local_server` returns exactly the first value of that
parameter, and the serving loop stops immediately after that request:
every request after it is left unprocessed. -/
theorem C3_first_code_wins (pre : List String) (r : String) (post : List String)
    (code : String)
    (hpre : ∀ q ∈ pre, parse_qs_first (urlparse_query q) "auth_code" = none)
    (hr : parse_qs_first (urlparse_query r) "auth_code" = some code) :
    run_local_server (pre ++ r :: post) = some (some code, post) := by
  unfold run_local_server
  induction pre with
  | nil =>
    have hstep : do_GET { running := true, auth_code := none } r =
        { running := false, auth_code := some code } := by
      unfold do_GET
      rw [hr]
    rw [List.nil_append, serve_loop, if_pos rfl, hstep,
      serve_loop_stopped post _ rfl]
  | cons q qs ih =>
    have hq : do_GET { running := true, auth_code := none } q =
        { running := true, auth_code := none } := by
      unfold do_GET
      rw [hpre q (List.mem_cons_self q qs)]
    simp only [List.cons_append, serve_loop, if_pos rfl, hq]
    exact ih (fun x hx => hpre x (List.mem_cons_of_mem q hx))

/-- Witness for C3: one code-free request, then the code-carrying request,
then a further request that is never processed. -/
theorem C3_witness :
    run_local_server
        ["/favicon.ico", "/?auth_code=ABC123&state=xyz", "/?auth_code=LATER"] =
      some (some "ABC123", ["/?auth_code=LATER"]) :=
  C3_first_code_wins ["/favicon.ico"] "/?auth_code=ABC123&state=xyz"
    ["/?auth_code=LATER"] "ABC123" (by decide) (by decide)

/-- C9: a GET request without an `auth_code` query parameter leaves the
server state (in particular the running flag) unchanged, so if no request
ever carries the parameter, `run_local_server` never returns: the serving
loop is still blocked after any finite request sequence — there is no
timeout. -/
theorem C9_no_code_blocks_forever :
    (∀ (st : ServerState) (path : String),
      parse_qs_first (urlparse_query path) "auth_code" = none →
      do_GET st path = st) ∧
    (∀ requests : List String,
      (∀ q ∈ requests, parse_qs_first (urlparse_query q) "auth_code" = none) →
      run_local_server requests = none) := by
  constructor
  · intro st path h
    unfold do_GET
    rw [h]
  · intro requests h
    unfold run_local_server
    induction requests with
    | nil => rfl
    | cons q qs ih =>
      have hq : do_GET { running := true, auth_code := none } q =
          { running := true, auth_code := none } := by
        unfold do_GET
        rw [h q (List.mem_cons_self q qs)]
      simp only [serve_loop, if_pos rfl, hq]
      exact ih (fun x hx => h x (List.mem_cons_of_mem q hx))

/-- Witness for C9: three code-free requests leave the server blocked. -/
theorem C9_witness :
    run_local_server ["/", "/favicon.ico", "/callback?code=XYZ&auth_code="] = none :=
  C9_no_code_blocks_forever.2
    ["/", "/favicon.ico", "/callback?code=XYZ&auth_code="] (by decide)

/-! ### Access-token persistence (lines 63-97)

`write_access_token` writes the token string verbatim as the file's
content (`f.write(access_token)`); `read_access_token` reads the content
back and strips it (`f.read().strip()`).  The file is modelled by its
content string. -/

/-- Python's `str.strip()` whitespace set, restricted to the ASCII
whitespace characters: space, tab, newline, vertical tab, form feed,
carriage return. -/
def pyIsSpace (c : Char) : Bool :=
  c == ' ' || c == '\t' || c == '\n' || c == '\x0b' || c == '\x0c' || c == '\r'

/-- `str.strip()` on the character list: drop whitespace from the left,
then from the right. -/
def stripChars (l : List Char) : List Char :=
  ((l.dropWhile pyIsSpace).reverse.dropWhile pyIsSpace).reverse

/-- `access_token.strip()`. -/
def pyStrip (s : String) : String :=
  String.mk (stripChars s.data)

/-- `write_access_token(access_token, filename)` (lines 81-97): the
content of the token file after the write. -/
def write_access_token (access_token : String) : String :=
  access_token

/-- `read_access_token(filename)` (lines 63-79) applied to the file's
content: `f.read().strip()`. -/
def read_access_token (file_content : String) : String :=
  pyStrip file_content

/-- The head of `dropWhile p` never satisfies `p`. -/
theorem dropWhile_head?_false {α : Type} (p : α → Bool) :
    ∀ (l : List α) (c : α), (l.dropWhile p).head? = some c → p c = false := by
  intro l
  induction l with
  | nil => intro c h; simp [List.dropWhile] at h
  | cons a rest ih =>
    intro c h
    cases hp : p a with
    | true => rw [List.dropWhile_cons_of_pos hp] at h; exact ih c h
    | false =>
      rw [List.dropWhile_cons_of_neg (by rw [hp]; exact Bool.false_ne_true)] at h
      rw [List.head?_cons, Option.some.injEq] at h
      rw [← h]
      exact hp

/-- The head of a nonempty left factor is the head of the append. -/
theorem head?_append_some {α : Type} {l l' : List α} {c : α}
    (h : l.head? = some c) : (l ++ l').head? = some c := by
  cases l with
  | nil => simp at h
  | cons a rest => simpa using h

/-- C6: writing an access token and reading it back yields the token with
leading and trailing whitespace stripped: the read-back value is
`token.strip()`; the original token is a whitespace prefix, then the
read-back value, then a whitespace suffix; and the read-back value itself
starts and ends with no whitespace character. -/
theorem C6_token_roundtrip (access_token : String) :
    read_access_token (write_access_token access_token) = pyStrip access_token ∧
    (∃ pre suf : List Char, pre.all pyIsSpace = true ∧ suf.all pyIsSpace = true ∧
      access_token.data =
        pre ++ (read_access_token (write_access_token access_token)).data ++ suf) ∧
    (∀ c : Char,
      (read_access_token (write_access_token access_token)).data.head? = some c →
      pyIsSpace c = false) ∧
    (∀ c : Char,
      (read_access_token (write_access_token access_token)).data.getLast? = some c →
      pyIsSpace c = false) := by
  refine ⟨rfl, ?_, ?_, ?_⟩
  · -- decomposition into whitespace prefix, stripped core, whitespace suffix
    refine ⟨access_token.data.takeWhile pyIsSpace,
      ((access_token.data.dropWhile pyIsSpace).reverse.takeWhile pyIsSpace).reverse,
      ?_, ?_, ?_⟩
    · rw [List.all_eq_true]
      intro c hc
      exact List.mem_takeWhile_imp hc
    · rw [List.all_eq_true]
      intro c hc
      rw [List.mem_reverse] at hc
      exact List.mem_takeWhile_imp hc
    · show access_token.data = _ ++ stripChars access_token.data ++ _
      unfold stripChars
      set l₁ := access_token.data.dropWhile pyIsSpace with hl₁
      have hdec : l₁.reverse.takeWhile pyIsSpace ++ l₁.reverse.dropWhile pyIsSpace =
          l₁.reverse := List.takeWhile_append_dropWhile _ _
      have hrev : l₁ = (l₁.reverse.dropWhile pyIsSpace).reverse ++
          (l₁.reverse.takeWhile pyIsSpace).reverse := by
        have := congrArg List.reverse hdec
        rw [List.reverse_append, List.reverse_reverse] at this
        exact this.symm
      calc access_token.data
          = access_token.data.takeWhile pyIsSpace ++ l₁ :=
            (List.takeWhile_append_dropWhile _ _).symm
        _ = access_token.data.takeWhile pyIsSpace ++
              ((l₁.reverse.dropWhile pyIsSpace).reverse ++
                (l₁.reverse.takeWhile pyIsSpace).reverse) := by rw [← hrev]
        _ = access_token.data.takeWhile pyIsSpace ++
              (l₁.reverse.dropWhile pyIsSpace).reverse ++
              (l₁.reverse.takeWhile pyIsSpace).reverse := by
            rw [List.append_assoc]
  · -- the stripped token does not start with whitespace
    intro c hc
    show pyIsSpace c = false
    have hc' : (stripChars access_token.data).head? = some c := hc
    unfold stripChars at hc'
    set l₁ := access_token.data.dropWhile pyIsSpace with hl₁
    have hdec : l₁.reverse.takeWhile pyIsSpace ++ l₁.reverse.dropWhile pyIsSpace =
        l₁.reverse := List.takeWhile_append_dropWhile _ _
    have hrev : l₁ = (l₁.reverse.dropWhile pyIsSpace).reverse ++
        (l₁.reverse.takeWhile pyIsSpace).reverse := by
      have := congrArg List.reverse hdec
      rw [List.reverse_append, List.reverse_reverse] at this
      exact this.symm
    have hl₁head : l₁.head? = some c := by
      rw [hrev]
      exact head?_append_some hc'
    exact dropWhile_head?_false pyIsSpace access_token.data c hl₁head
  · -- the stripped token does not end with whitespace
    intro c hc
    have hc' : (stripChars access_token.data).getLast? = some c := hc
    unfold stripChars at hc'
    rw [List.getLast?_reverse] at hc'
    exact dropWhile_head?_false pyIsSpace _ c hc'

/-- Witness for C6: a concrete padded token. -/
theorem C6_witness :
    read_access_token (write_access_token " \ttok3n\n") = pyStrip " \ttok3n\n" ∧
    (∃ pre suf : List Char, pre.all pyIsSpace = true ∧ suf.all pyIsSpace = true ∧
      (" \ttok3n\n" : String).data =
        pre ++ (read_access_token (write_access_token " \ttok3n\n")).data ++ suf) ∧
    (∀ c : Char,
      (read_access_token (write_access_token " \ttok3n\n")).data.head? = some c →
      pyIsSpace c = false) ∧
    (∀ c : Char,
      (read_access_token (write_access_token " \ttok3n\n")).data.getLast? = some c →
      pyIsSpace c = false) :=
  C6_token_roundtrip " \ttok3n\n"

end Fyers
